import Mathlib

/-!
Verification of the OpenRAVE `EnvironmentBase` coordinator specification
(src/rave/environment.h).  The header declares the coordinator as a pure
abstract interface (every member is a pure virtual function), so the
behaviour of each operation is modelled here from the specification's
contracts and from the doc comments in the header itself.
-/

namespace OpenRAVE

/-- Modelled from the spec: a body's current pose (the concrete geometric
representation is out of scope; an exact coordinate triple suffices to
observe mutation). -/
structure Pose where
  px : Int
  py : Int
  pz : Int
deriving DecidableEq, Repr

/-- Modelled from the spec: a Body has an environment-scoped stable integer
identifier, a human-readable name, and a current pose (`KinBody` itself is
not under src/, only its uses in environment.h). -/
structure Body where
  id : Nat
  name : String
  pose : Pose
deriving DecidableEq, Repr

/-- Modelled from the spec and the header doc at src/rave/environment.h:150
("if NULL, environment sets an dummy physics engine"): the installed physics
engine is either the dummy no-op engine or a named plugin engine. -/
inductive PhysicsEngine
  | dummy
  | engine (name : String)
deriving DecidableEq, Repr

/-- Modelled from the spec: the coordinator's observable state - the body
registry in insertion order, the set of owned auxiliary interfaces (by
interface identifier), the installed collision checker (by identifier),
the installed physics engine, and the simulated-time counter in
microseconds (`EnvironmentBase` is abstract; its state is modelled from
sections 3-4 of the spec). -/
structure Env where
  bodies : List Body
  owned : List Nat
  checker : Nat
  engine : PhysicsEngine
  simTime : Nat
deriving DecidableEq, Repr

/-- True when a live registered body already carries name `n`. -/
def nameTaken (e : Env) (n : String) : Bool :=
  e.bodies.any (fun b => b.name == n)

/-- The longest name length among live bodies. -/
def maxNameLen (e : Env) : Nat :=
  (e.bodies.map (fun b => b.name.length)).foldr max 0

/-- Modelled from the spec: "otherwise assigns a unique suffix to the name
before insertion" - append a suffix long enough that the result is longer
than, hence different from, every live body's name. -/
def uniqueName (e : Env) (n : String) : String :=
  n ++ String.mk (List.replicate (maxNameLen e + 1) '_')

/-- Modelled from the spec contract for `EnvironmentBase::AddKinBody`
(src/rave/environment.h:244): fails returning false when a same-named live
body exists and `bAnonymous` is false; with `bAnonymous` true the name is
made unique before insertion. -/
def addKinBody (e : Env) (b : Body) (bAnonymous : Bool) : Bool × Env :=
  if nameTaken e b.name then
    if bAnonymous then
      (true, { e with bodies := e.bodies ++ [{ b with name := uniqueName e b.name }] })
    else
      (false, e)
  else
    (true, { e with bodies := e.bodies ++ [b] })

/-- Modelled from the spec contract for `EnvironmentBase::RemoveKinBody`
(src/rave/environment.h:252): fails when the body is not currently
registered; otherwise the body is removed from the registry. -/
def removeKinBody (e : Env) (b : Body) : Bool × Env :=
  if e.bodies.contains b then
    (true, { e with bodies := e.bodies.filter (fun x => x.id != b.id) })
  else
    (false, e)

/-- Modelled from the spec: name lookup returns the first registered body
matching the name (`EnvironmentBase::GetKinBody`, src/rave/environment.h:256). -/
def getKinBody (e : Env) (n : String) : Option Body :=
  e.bodies.find? (fun b => b.name == n)

/-- Modelled from the spec: id lookup
(`EnvironmentBase::GetBodyFromEnvironmentId`, src/rave/environment.h:280). -/
def getBodyFromEnvironmentId (e : Env) (i : Nat) : Option Body :=
  e.bodies.find? (fun b => b.id == i)

/-- Modelled from the spec: `Load` delegates to the external scene parser
(an explicit parameter here); a failed parse leaves the registry unchanged,
a successful parse inserts the parsed bodies
(`EnvironmentBase::Load`, src/rave/environment.h:176). -/
def load (parseFile : String → Option (List Body)) (e : Env) (filename : String) :
    Bool × Env :=
  match parseFile filename with
  | none => (false, e)
  | some bs => (true, { e with bodies := e.bodies ++ bs })

/-- Modelled from the spec: `LoadXMLData` is `Load` over an in-memory
buffer through the external parser
(`EnvironmentBase::LoadXMLData`, src/rave/environment.h:178). -/
def loadXMLData (parseData : String → Option (List Body)) (e : Env) (data : String) :
    Bool × Env :=
  match parseData data with
  | none => (false, e)
  | some bs => (true, { e with bodies := e.bodies ++ bs })

/-- Modelled from the spec: `Save` hands the scene to the external
serializer and never mutates the coordinator
(`EnvironmentBase::Save`, src/rave/environment.h:180). -/
def save (serialize : Env → String → Bool) (e : Env) (filename : String) :
    Bool × Env :=
  (serialize e filename, e)

/-- Modelled from the spec: `SetCollisionChecker` installs the given
checker as the single active one
(`EnvironmentBase::SetCollisionChecker`, src/rave/environment.h:102). -/
def setCollisionChecker (e : Env) (c : Nat) : Bool × Env :=
  (true, { e with checker := c })

/-- Modelled from the header doc at src/rave/environment.h:150-152: "set
the physics engine ... if NULL, environment sets an dummy physics engine". -/
def setPhysicsEngine (e : Env) (p : Option PhysicsEngine) : Bool × Env :=
  (true, { e with engine := p.getD PhysicsEngine.dummy })

/-- Modelled from the spec: one simulation step advances the simulated-time
counter by the step size (in microseconds)
(`EnvironmentBase::StepSimulation`, src/rave/environment.h:156). -/
def stepSimulation (e : Env) (stepMicro : Nat) : Env :=
  { e with simTime := e.simTime + stepMicro }

/-- Modelled from the spec: the simulation loop started by
`StartSimulation(stepSize, realTime := false)` runs steps back to back;
`runSimulation e s n` is the state after `n` such steps
(src/rave/environment.h:161). -/
def runSimulation (e : Env) (stepMicro : Nat) : Nat → Env
  | 0 => e
  | Nat.succ n => runSimulation (stepSimulation e stepMicro) stepMicro n

/-- `GetSimulationTime` returns the simulated time in microseconds
(src/rave/environment.h:170). -/
def getSimulationTime (e : Env) : Nat :=
  e.simTime

/-- Modelled from the spec: `Reset` zeroes simulated time (and restores
body configurations, preserving the interfaces)
(`EnvironmentBase::Reset`, src/rave/environment.h:43). -/
def reset (e : Env) : Env :=
  { e with simTime := 0 }

/-- Modelled from the spec: `OwnInterface` records the interface as owned;
a no-op when it is already owned
(`EnvironmentBase::OwnInterface`, src/rave/environment.h:66). -/
def ownInterface (e : Env) (i : Nat) : Env :=
  if e.owned.contains i then e else { e with owned := e.owned ++ [i] }

/-- Modelled from the spec: `DisownInterface` drops the coordinator's
claim on the interface; a no-op when it is not owned
(`EnvironmentBase::DisownInterface`, src/rave/environment.h:69). -/
def disownInterface (e : Env) (i : Nat) : Env :=
  { e with owned := e.owned.filter (fun j => j != i) }

/-- An interface is owned exactly when the registry holds its identifier. -/
def isOwned (e : Env) (i : Nat) : Bool :=
  e.owned.contains i

/-- An interface is disowned exactly when it is not owned: the two states
are complementary. -/
def isDisowned (e : Env) (i : Nat) : Bool :=
  !(isOwned e i)

/-- The callback action type of src/rave/environment.h:135
(`CollisionAction`): modelled from the spec as
{ignore, report-and-continue, abort-check}. -/
inductive CollisionAction
  | ignore
  | reportAndContinue
  | abortCheck
deriving DecidableEq, Repr

/-- A transient collision report: the colliding pair by body identifier
(`CollisionReport` itself is not under src/). -/
structure CollisionReport where
  body1 : Nat
  body2 : Nat
deriving DecidableEq, Repr

/-- A registered collision callback: the handle token issued by
`RegisterCollisionCallback` (src/rave/environment.h:143) and the handler,
which receives the report and the called-from-physics flag. -/
structure Callback where
  token : Nat
  fn : CollisionReport → Bool → CollisionAction

/-- Modelled from the spec: callbacks run in registration order; a callback
returning abort-check short-circuits the remaining ones. The result is the
list of invoked callback tokens, in invocation order. -/
def runCallbacks (rep : CollisionReport) (fromPhysics : Bool) :
    List Callback → List Nat
  | [] => []
  | c :: rest =>
    match c.fn rep fromPhysics with
    | CollisionAction.abortCheck => [c.token]
    | _ => c.token :: runCallbacks rep fromPhysics rest

/-- Modelled from the spec: `CheckCollision` delegates the geometric test
to the installed checker (its verdict is the `geomHit` argument); when a
collision is detected every live registered callback is invoked in
registration order, and the call reports "collision detected" whether or
not some callback aborted (src/rave/environment.h:105,137-145). Returns
the collision verdict and the invoked callback tokens. -/
def checkCollision (geomHit : Bool) (cbs : List Callback)
    (rep : CollisionReport) (fromPhysics : Bool) : Bool × List Nat :=
  if geomHit then (true, runCallbacks rep fromPhysics cbs) else (false, [])

/-- The interface kinds of `InterfaceType`, modelled from the creation
family of src/rave/environment.h:47-57. -/
inductive InterfaceType
  | robot
  | planner
  | sensorSystem
  | controller
  | problem
  | ikSolver
  | physicsEngine
  | sensor
  | collisionChecker
  | viewer
deriving DecidableEq, Repr

/-- A loaded plugin advertises the (kind, type-name) pairs it can
construct (the `PLUGININFO` descriptor; supplied by the external loader). -/
structure Plugin where
  name : String
  provides : List (InterfaceType × String)
deriving DecidableEq, Repr

/-- The three outcomes of interface creation distinguished by the spec:
a constructed interface, "type not found", and "construction failed". -/
inductive CreateResult
  | created (iface : Nat)
  | typeNotFound
  | constructionFailed
deriving DecidableEq, Repr

/-- `HasInterface` (src/rave/environment.h:72): true when some loaded
plugin advertises the type name for the kind. -/
def hasInterface (plugins : List Plugin) (k : InterfaceType) (t : String) :
    Bool :=
  plugins.any (fun p => p.provides.contains (k, t))

/-- Modelled from the spec: `CreateInterface`
(src/rave/environment.h:47) looks the type name up among the loaded
plugins' advertised capabilities; absence yields "type not found" (an
empty result, not an error); a matching plugin whose constructor fails
(the `construct` parameter returning none) yields the distinct
"construction failed" outcome. -/
def createInterface (plugins : List Plugin)
    (construct : InterfaceType → String → Option Nat)
    (k : InterfaceType) (t : String) : CreateResult :=
  if hasInterface plugins k t then
    match construct k t with
    | some i => CreateResult.created i
    | none => CreateResult.constructionFailed
  else
    CreateResult.typeNotFound

/-- The state of the re-entrant Environment Lock
(`EnvironmentMutex`, src/rave/environment.h:26, a
boost::recursive_try_mutex): the owning thread, if any, and the recursion
depth. Modelled from the spec since boost supplies the implementation. -/
structure RecLock where
  owner : Option Nat
  depth : Nat
deriving DecidableEq, Repr

/-- Outcome of the try-acquire variant: either the lock is acquired
(yielding the new lock state) or the caller is told it would block. -/
inductive AcquireResult
  | acquired (l : RecLock)
  | wouldBlock
deriving DecidableEq, Repr

/-- Modelled from the spec: try-acquire succeeds immediately on a free
lock or when the caller already owns it (incrementing the recursion
depth), and reports the distinct would-block outcome when another thread
holds it. -/
def tryAcquire (l : RecLock) (t : Nat) : AcquireResult :=
  match l.owner with
  | none => AcquireResult.acquired { owner := some t, depth := 1 }
  | some o =>
    if o = t then AcquireResult.acquired { owner := some t, depth := l.depth + 1 }
    else AcquireResult.wouldBlock

/-- `n` nested acquisitions by thread `t`: none when any of them would
block, otherwise the resulting lock state. -/
def acquireRec (l : RecLock) (t : Nat) : Nat → Option RecLock
  | 0 => some l
  | Nat.succ n =>
    match tryAcquire l t with
    | AcquireResult.acquired l2 => acquireRec l2 t n
    | AcquireResult.wouldBlock => none

/-! ### Helper lemmas on the registry -/

lemma mem_le_foldr_max (l : List Nat) (x : Nat) (hx : x ∈ l) :
    x ≤ l.foldr max 0 := by
  induction l with
  | nil => cases hx
  | cons a t ih =>
    rcases List.mem_cons.mp hx with h | h
    · exact h ▸ le_max_left _ _
    · exact le_trans (ih h) (le_max_right _ _)

lemma name_length_le_maxNameLen (e : Env) (b : Body) (hb : b ∈ e.bodies) :
    b.name.length ≤ maxNameLen e := by
  exact mem_le_foldr_max _ _ (List.mem_map.mpr ⟨b, hb, rfl⟩)

lemma length_uniqueName (e : Env) (n : String) :
    (uniqueName e n).length = n.length + (maxNameLen e + 1) := by
  simp [uniqueName, String.length_append]

lemma uniqueName_ne_live (e : Env) (n : String) (c : Body) (hc : c ∈ e.bodies) :
    c.name ≠ uniqueName e n := by
  intro h
  have hlen : c.name.length = (uniqueName e n).length := by rw [h]
  rw [length_uniqueName] at hlen
  have hle : c.name.length ≤ maxNameLen e := name_length_le_maxNameLen e c hc
  omega

lemma runSimulation_simTime (stepMicro : Nat) :
    ∀ (n : Nat) (e : Env),
      (runSimulation e stepMicro n).simTime = e.simTime + n * stepMicro := by
  intro n
  induction n with
  | zero => intro e; simp [runSimulation]
  | succ m ih =>
    intro e
    rw [runSimulation, ih]
    simp [stepSimulation, Nat.succ_mul]
    omega

lemma isOwned_ownInterface (e : Env) (i : Nat) :
    isOwned (ownInterface e i) i = true := by
  by_cases h : i ∈ e.owned <;> simp [ownInterface, isOwned, h]

lemma isOwned_disownInterface (e : Env) (i : Nat) :
    isOwned (disownInterface e i) i = false := by
  simp [disownInterface, isOwned]

lemma ownInterface_already (e : Env) (i : Nat) (h : isOwned e i = true) :
    ownInterface e i = e := by
  have hm : i ∈ e.owned := by simpa [isOwned] using h
  simp [ownInterface, hm]

lemma disownInterface_already (e : Env) (i : Nat) (h : isOwned e i = false) :
    disownInterface e i = e := by
  have hm : i ∉ e.owned := by simpa [isOwned] using h
  have hf : e.owned.filter (fun j => j != i) = e.owned := by
    apply List.filter_eq_self.mpr
    intro a ha
    simp only [bne_iff_ne, ne_eq]
    intro hai
    exact hm (hai ▸ ha)
  simp [disownInterface, hf]

lemma runCallbacks_no_abort (rep : CollisionReport) (fp : Bool) :
    ∀ cbs : List Callback,
      (∀ c ∈ cbs, c.fn rep fp ≠ CollisionAction.abortCheck) →
      runCallbacks rep fp cbs = cbs.map Callback.token := by
  intro cbs
  induction cbs with
  | nil => intro _; rfl
  | cons c rest ih =>
    intro h
    have hc : c.fn rep fp ≠ CollisionAction.abortCheck :=
      h c (List.mem_cons_self c rest)
    have hrest := ih (fun c2 hc2 => h c2 (List.mem_cons_of_mem c hc2))
    cases ha : c.fn rep fp with
    | abortCheck => exact absurd ha hc
    | ignore => simp [runCallbacks, ha, hrest]
    | reportAndContinue => simp [runCallbacks, ha, hrest]

lemma runCallbacks_abort (rep : CollisionReport) (fp : Bool) (c : Callback)
    (post : List Callback) (hc : c.fn rep fp = CollisionAction.abortCheck) :
    ∀ pre : List Callback,
      (∀ c2 ∈ pre, c2.fn rep fp ≠ CollisionAction.abortCheck) →
      runCallbacks rep fp (pre ++ c :: post) =
        pre.map Callback.token ++ [c.token] := by
  intro pre
  induction pre with
  | nil => intro _; simp [runCallbacks, hc]
  | cons p rest ih =>
    intro h
    have hp : p.fn rep fp ≠ CollisionAction.abortCheck :=
      h p (List.mem_cons_self p rest)
    have hrest := ih (fun c2 hc2 => h c2 (List.mem_cons_of_mem p hc2))
    cases ha : p.fn rep fp with
    | abortCheck => exact absurd ha hp
    | ignore => simp [runCallbacks, ha, hrest]
    | reportAndContinue => simp [runCallbacks, ha, hrest]

lemma acquireRec_owned (t : Nat) : ∀ (n d : Nat),
    acquireRec { owner := some t, depth := d } t n =
      some { owner := some t, depth := d + n } := by
  intro n
  induction n with
  | zero => intro d; simp [acquireRec]
  | succ m ih =>
    intro d
    rw [acquireRec]
    have hadd : d + 1 + m = d + (m + 1) := by omega
    simp [tryAcquire, ih, hadd]

/-! ### Theorems for the claims on the registry, clock and ownership -/

/-- C3: with a live same-named body, AddKinBody with bAnonymous false fails
and leaves the registry unchanged; with bAnonymous true it succeeds and
inserts the body under a mutated unique name differing from every live
body's name; with no name clash, AddKinBody succeeds and a subsequent name
lookup returns the body. -/
theorem addKinBody_name_contract (e : Env) (b : Body) :
    (nameTaken e b.name = true →
      addKinBody e b false = (false, e)) ∧
    (nameTaken e b.name = true →
      (addKinBody e b true).1 = true ∧
      (addKinBody e b true).2.bodies =
        e.bodies ++ [{ b with name := uniqueName e b.name }] ∧
      ∀ c, c ∈ e.bodies → c.name ≠ uniqueName e b.name) ∧
    (nameTaken e b.name = false →
      (addKinBody e b false).1 = true ∧
      getKinBody (addKinBody e b false).2 b.name = some b) := by
  refine ⟨?_, ?_, ?_⟩
  · intro h
    simp [addKinBody, h]
  · intro h
    refine ⟨by simp [addKinBody, h], by simp [addKinBody, h], ?_⟩
    intro c hc
    exact uniqueName_ne_live e b.name c hc
  · intro h
    refine ⟨by simp [addKinBody, h], ?_⟩
    have hnone : e.bodies.find? (fun x => x.name == b.name) = none := by
      apply List.find?_eq_none.mpr
      intro x hx
      have := List.any_eq_false.mp h x hx
      simpa using this
    simp [addKinBody, h, getKinBody, List.find?_append, hnone]

/-- C4: every boolean-returning coordinator operation that returns false
leaves the coordinator state exactly as it was; in particular a Load or
LoadXMLData whose parse fails returns false and leaves the registry
unchanged. -/
theorem failed_calls_leave_state_unchanged
    (parse : String → Option (List Body)) (ser : Env → String → Bool)
    (e : Env) (b : Body) (anon : Bool) (s : String) (c : Nat)
    (p : Option PhysicsEngine) :
    ((addKinBody e b anon).1 = false → (addKinBody e b anon).2 = e) ∧
    ((removeKinBody e b).1 = false → (removeKinBody e b).2 = e) ∧
    ((setCollisionChecker e c).1 = false → (setCollisionChecker e c).2 = e) ∧
    ((setPhysicsEngine e p).1 = false → (setPhysicsEngine e p).2 = e) ∧
    ((load parse e s).1 = false → (load parse e s).2 = e) ∧
    ((loadXMLData parse e s).1 = false → (loadXMLData parse e s).2 = e) ∧
    ((save ser e s).1 = false → (save ser e s).2 = e) ∧
    (parse s = none → load parse e s = (false, e)) ∧
    (parse s = none → loadXMLData parse e s = (false, e)) := by
  refine ⟨?_, ?_, ?_, ?_, ?_, ?_, ?_, ?_, ?_⟩
  · intro h
    cases h1 : nameTaken e b.name <;> cases anon <;> simp_all [addKinBody]
  · intro h
    cases h1 : e.bodies.contains b <;> simp_all [removeKinBody]
  · intro h
    simp [setCollisionChecker] at h
  · intro h
    simp [setPhysicsEngine] at h
  · intro h
    cases hp : parse s with
    | none => simp [load, hp]
    | some bs => simp [load, hp] at h
  · intro h
    cases hp : parse s with
    | none => simp [loadXMLData, hp]
    | some bs => simp [loadXMLData, hp] at h
  · intro _
    rfl
  · intro h
    simp [load, h]
  · intro h
    simp [loadXMLData, h]

/-- C5: the simulated clock started with realTime false advances
GetSimulationTime by exactly the number of executed steps times the step
size in microseconds, and Reset zeroes it. -/
theorem getSimulationTime_advances (e : Env) (stepMicro n : Nat) :
    getSimulationTime (runSimulation e stepMicro n) =
      getSimulationTime e + n * stepMicro ∧
    getSimulationTime (reset e) = 0 := by
  constructor
  · simp [getSimulationTime, runSimulation_simTime]
  · simp [getSimulationTime, reset]

/-- C6: removing a registered body succeeds and a subsequent id lookup
returns none; removing an unregistered body fails and leaves the registry
unchanged. -/
theorem removeKinBody_contract (e : Env) (b : Body) :
    (e.bodies.contains b = true →
      (removeKinBody e b).1 = true ∧
      getBodyFromEnvironmentId (removeKinBody e b).2 b.id = none) ∧
    (e.bodies.contains b = false → removeKinBody e b = (false, e)) := by
  constructor
  · intro h
    have hm : b ∈ e.bodies := by simpa using h
    have h2 : removeKinBody e b =
        (true, { e with bodies := e.bodies.filter (fun x => x.id != b.id) }) := by
      simp [removeKinBody, hm]
    rw [h2]
    refine ⟨rfl, ?_⟩
    simp only [getBodyFromEnvironmentId]
    apply List.find?_eq_none.mpr
    intro x hx
    have hne := (List.mem_filter.mp hx).2
    simp only [bne_iff_ne, ne_eq] at hne
    simpa using hne
  · intro h
    have hm : b ∉ e.bodies := by simpa using h
    simp [removeKinBody, hm]

/-- C7: after OwnInterface the interface is owned, after DisownInterface it
is disowned, at every moment exactly one of the two states holds, both
operations are idempotent, and each is a no-op when the interface is
already in the requested state. -/
theorem interface_ownership_contract (e : Env) (i : Nat) :
    isOwned (ownInterface e i) i = true ∧
    isOwned (disownInterface e i) i = false ∧
    ((isOwned e i = true ∧ isDisowned e i = false) ∨
      (isOwned e i = false ∧ isDisowned e i = true)) ∧
    ownInterface (ownInterface e i) i = ownInterface e i ∧
    disownInterface (disownInterface e i) i = disownInterface e i ∧
    (isOwned e i = true → ownInterface e i = e) ∧
    (isOwned e i = false → disownInterface e i = e) := by
  refine ⟨isOwned_ownInterface e i, isOwned_disownInterface e i, ?_, ?_, ?_,
    ownInterface_already e i, disownInterface_already e i⟩
  · cases h : isOwned e i
    · right; simp [isDisowned, h]
    · left; simp [isDisowned, h]
  · exact ownInterface_already _ i (isOwned_ownInterface e i)
  · simp [disownInterface, List.filter_filter]

/-- C2: whenever the geometric test detects a collision, CheckCollision
reports "collision detected"; every live registered callback is invoked in
registration order with the report and the from-physics flag; a callback
returning abort-check short-circuits the callbacks after it while the call
still reports "collision detected"; with one registered callback the
callback runs exactly once per detecting query, and zero times once its
handle is released. -/
theorem collision_callback_dispatch (geomHit : Bool) (cbs : List Callback)
    (rep : CollisionReport) (fp : Bool) :
    (geomHit = true → (checkCollision geomHit cbs rep fp).1 = true) ∧
    ((∀ c ∈ cbs, c.fn rep fp ≠ CollisionAction.abortCheck) →
      checkCollision true cbs rep fp = (true, cbs.map Callback.token)) ∧
    (∀ (pre : List Callback) (c : Callback) (post : List Callback),
      (∀ c2 ∈ pre, c2.fn rep fp ≠ CollisionAction.abortCheck) →
      c.fn rep fp = CollisionAction.abortCheck →
      checkCollision true (pre ++ c :: post) rep fp =
        (true, pre.map Callback.token ++ [c.token])) ∧
    (∀ c : Callback, checkCollision true [c] rep fp = (true, [c.token])) ∧
    checkCollision true [] rep fp = (true, []) := by
  refine ⟨?_, ?_, ?_, ?_, ?_⟩
  · intro h
    simp [checkCollision, h]
  · intro h
    simp [checkCollision, runCallbacks_no_abort rep fp cbs h]
  · intro pre c post hpre hc
    simp [checkCollision, runCallbacks_abort rep fp c post hc pre hpre]
  · intro c
    cases ha : c.fn rep fp <;> simp [checkCollision, runCallbacks, ha]
  · rfl

/-- C8: CreateInterface yields "type not found" (the empty result) exactly
when no loaded plugin advertises the type name for the kind, which is
exactly when HasInterface returns false; when a matching plugin's
constructor fails the outcome is "construction failed", distinguishable
from "type not found". -/
theorem createInterface_outcomes (plugins : List Plugin)
    (construct : InterfaceType → String → Option Nat)
    (k : InterfaceType) (t : String) :
    (createInterface plugins construct k t = CreateResult.typeNotFound ↔
      hasInterface plugins k t = false) ∧
    (hasInterface plugins k t = true → construct k t = none →
      createInterface plugins construct k t = CreateResult.constructionFailed) ∧
    (hasInterface plugins k t = true → ∀ i, construct k t = some i →
      createInterface plugins construct k t = CreateResult.created i) ∧
    (∀ i, CreateResult.constructionFailed ≠ CreateResult.typeNotFound ∧
      CreateResult.created i ≠ CreateResult.typeNotFound) := by
  refine ⟨?_, ?_, ?_, ?_⟩
  · cases h : hasInterface plugins k t
    · simp [createInterface, h]
    · cases hc : construct k t <;> simp [createInterface, h, hc]
  · intro h hc
    simp [createInterface, h, hc]
  · intro h i hc
    simp [createInterface, h, hc]
  · intro i
    exact ⟨by simp, by simp⟩

/-- C9: the Environment Lock is re-entrant: a thread already holding it
re-acquires it any number of times without blocking, each nested
acquisition adding one to the recursion depth; the try-acquire variant
returns the distinct would-block outcome, instead of blocking, when a
different thread holds the lock; a free lock is acquired immediately. -/
theorem environment_lock_reentrant (l : RecLock) (t : Nat) (n : Nat) :
    (l.owner = some t →
      acquireRec l t n = some { owner := some t, depth := l.depth + n }) ∧
    (∀ o, l.owner = some o → o ≠ t →
      tryAcquire l t = AcquireResult.wouldBlock) ∧
    (l.owner = none →
      tryAcquire l t = AcquireResult.acquired { owner := some t, depth := 1 }) ∧
    (∀ l2, AcquireResult.acquired l2 ≠ AcquireResult.wouldBlock) := by
  obtain ⟨o, d⟩ := l
  refine ⟨?_, ?_, ?_, ?_⟩
  · intro h
    simp only at h
    subst h
    exact acquireRec_owned t n d
  · intro o2 h hne
    simp only at h
    subst h
    simp [tryAcquire, hne]
  · intro h
    simp only at h
    subst h
    simp [tryAcquire]
  · intro l2
    simp

/-! ### The Clone Engine over an addressed store -/

/-- Modelled from the spec: an addressed store of body records - the
mutable memory a clone must not share with its source. Addresses at or
above `next` are unallocated. -/
structure Heap where
  cells : List (Nat × Body)
  next : Nat
deriving DecidableEq, Repr

/-- The body stored at address `a`, if allocated. -/
def Heap.get (h : Heap) (a : Nat) : Option Body :=
  (h.cells.find? (fun c => c.1 == a)).map Prod.snd

/-- Well-formedness: every allocated address is below the allocation
bound. -/
def Heap.WF (h : Heap) : Prop :=
  ∀ c ∈ h.cells, c.1 < h.next

/-- Allocate a fresh cell holding `b`: the new heap and the fresh
address. -/
def Heap.alloc (h : Heap) (b : Body) : Heap × Nat :=
  ({ cells := h.cells ++ [(h.next, b)], next := h.next + 1 }, h.next)

/-- Overwrite the body stored at address `a` (a no-op on an unallocated
address). -/
def Heap.setCell (h : Heap) (a : Nat) (b : Body) : Heap :=
  { h with cells := h.cells.map (fun c => if c.1 == a then (c.1, b) else c) }

/-- Mutate the pose of the body stored at address `a`. -/
def setPose (h : Heap) (a : Nat) (p : Pose) : Heap :=
  match h.get a with
  | some b => h.setCell a { b with pose := p }
  | none => h

/-- A coordinator's registry as references into the store: the addresses
of its registered bodies, in insertion order. -/
structure EnvRef where
  addrs : List Nat
deriving DecidableEq, Repr

/-- The bodies a coordinator observes through its registry. -/
def viewBodies (h : Heap) (e : EnvRef) : List Body :=
  e.addrs.filterMap (fun a => h.get a)

/-- Modelled from the spec: the Clone Engine walks the registry and
deep-copies every body to a fresh address, preserving identifier, name
and pose (src/rave/environment.h:90-96). -/
def cloneBodies (h : Heap) : List Nat → Heap × List Nat
  | [] => (h, [])
  | a :: rest =>
    match h.get a with
    | some b =>
      let p1 := h.alloc b
      let p2 := cloneBodies p1.1 rest
      (p2.1, p1.2 :: p2.2)
    | none => cloneBodies h rest

/-- `CloneSelf` (src/rave/environment.h:96): the store extended with the
deep copies, and the new coordinator whose registry refers to them. -/
def cloneSelf (h : Heap) (e : EnvRef) : Heap × EnvRef :=
  ((cloneBodies h e.addrs).1, { addrs := (cloneBodies h e.addrs).2 })

/-! ### Heap lemmas -/

lemma get_alloc_of_isSome (h : Heap) (b : Body) (a : Nat)
    (ha : (h.get a).isSome) : ((h.alloc b).1).get a = h.get a := by
  unfold Heap.get at ha ⊢
  unfold Heap.alloc
  simp only [List.find?_append]
  cases hf : h.cells.find? (fun c => c.1 == a) with
  | none => rw [hf] at ha; simp at ha
  | some c => simp [hf]

lemma get_alloc_fresh (h : Heap) (b : Body) (hwf : h.WF) :
    ((h.alloc b).1).get h.next = some b := by
  have hnone : h.cells.find? (fun c => c.1 == h.next) = none := by
    apply List.find?_eq_none.mpr
    intro c hc
    have := hwf c hc
    simp only [beq_iff_eq]
    omega
  unfold Heap.get Heap.alloc
  simp [List.find?_append, hnone]

lemma alloc_WF (h : Heap) (b : Body) (hwf : h.WF) : ((h.alloc b).1).WF := by
  intro c hc
  unfold Heap.alloc at hc
  simp only [List.mem_append, List.mem_singleton] at hc
  show c.1 < h.next + 1
  rcases hc with hc | hc
  · exact Nat.lt_trans (hwf c hc) (Nat.lt_succ_self _)
  · subst hc
    exact Nat.lt_succ_self _

lemma addr_lt_next_of_isSome (h : Heap) (a : Nat) (hwf : h.WF)
    (ha : (h.get a).isSome) : a < h.next := by
  unfold Heap.get at ha
  cases hf : h.cells.find? (fun c => c.1 == a) with
  | none => rw [hf] at ha; simp at ha
  | some c =>
    have hmem := List.mem_of_find?_eq_some hf
    have hkey := List.find?_some hf
    simp only [beq_iff_eq] at hkey
    have := hwf c hmem
    omega

lemma find?_key_map (a a2 : Nat) (b : Body) (hne : a2 ≠ a) :
    ∀ cells : List (Nat × Body),
      ((cells.map (fun c => if c.1 == a then (c.1, b) else c)).find?
          (fun c => c.1 == a2)).map Prod.snd =
        (cells.find? (fun c => c.1 == a2)).map Prod.snd := by
  intro cells
  induction cells with
  | nil => rfl
  | cons c cs ih =>
    by_cases hca : c.1 = a
    · have h2 : (c.1 == a2) = false := by
        simp only [beq_eq_false_iff_ne, ne_eq]
        omega
      have h1 : (c.1 == a) = true := by simp [hca]
      simp only [List.map_cons, h1, if_true]
      rw [List.find?_cons_of_neg _ (by simp [h2]),
        List.find?_cons_of_neg _ (by simp [h2])]
      exact ih
    · have h1 : (c.1 == a) = false := by simp [hca]
      simp only [List.map_cons, h1, Bool.false_eq_true, if_false]
      by_cases hc2 : c.1 = a2
      · rw [List.find?_cons_of_pos _ (by simp [hc2]),
          List.find?_cons_of_pos _ (by simp [hc2])]
      · rw [List.find?_cons_of_neg _ (by simp [hc2]),
          List.find?_cons_of_neg _ (by simp [hc2])]
        exact ih

lemma get_setCell_ne (h : Heap) (a a2 : Nat) (b : Body) (hne : a2 ≠ a) :
    (h.setCell a b).get a2 = h.get a2 := by
  unfold Heap.get Heap.setCell
  exact find?_key_map a a2 b hne h.cells

lemma get_setPose_ne (h : Heap) (a a2 : Nat) (p : Pose) (hne : a2 ≠ a) :
    (setPose h a p).get a2 = h.get a2 := by
  unfold setPose
  cases h.get a with
  | none => rfl
  | some b => exact get_setCell_ne h a a2 _ hne

lemma cloneBodies_next_ge : ∀ (as : List Nat) (h : Heap),
    h.next ≤ (cloneBodies h as).1.next := by
  intro as
  induction as with
  | nil => intro h; exact Nat.le_refl _
  | cons a rest ih =>
    intro h
    rw [cloneBodies]
    cases hg : h.get a with
    | none => exact ih h
    | some b =>
      have h1 := ih (h.alloc b).1
      simp only
      exact Nat.le_trans (Nat.le_succ _) h1

lemma cloneBodies_WF : ∀ (as : List Nat) (h : Heap),
    h.WF → (cloneBodies h as).1.WF := by
  intro as
  induction as with
  | nil => intro h hwf; exact hwf
  | cons a rest ih =>
    intro h hwf
    rw [cloneBodies]
    cases hg : h.get a with
    | none => exact ih h hwf
    | some b => exact ih (h.alloc b).1 (alloc_WF h b hwf)

lemma cloneBodies_get_preserved : ∀ (as : List Nat) (h : Heap) (a2 : Nat),
    (h.get a2).isSome → (cloneBodies h as).1.get a2 = h.get a2 := by
  intro as
  induction as with
  | nil => intro h a2 _; rfl
  | cons a rest ih =>
    intro h a2 ha2
    rw [cloneBodies]
    cases hg : h.get a with
    | none => exact ih h a2 ha2
    | some b =>
      have hpres := get_alloc_of_isSome h b a2 ha2
      have hsome2 : ((h.alloc b).1.get a2).isSome := by rw [hpres]; exact ha2
      calc (cloneBodies (h.alloc b).1 rest).1.get a2
          = (h.alloc b).1.get a2 := ih (h.alloc b).1 a2 hsome2
        _ = h.get a2 := hpres

lemma cloneBodies_addrs_fresh : ∀ (as : List Nat) (h : Heap), h.WF →
    ∀ a2 ∈ (cloneBodies h as).2, h.next ≤ a2 := by
  intro as
  induction as with
  | nil => intro h _ a2 ha2; cases ha2
  | cons a rest ih =>
    intro h hwf a2 ha2
    rw [cloneBodies] at ha2
    cases hg : h.get a with
    | none =>
      rw [hg] at ha2
      exact ih h hwf a2 ha2
    | some b =>
      rw [hg] at ha2
      simp only [List.mem_cons] at ha2
      rcases ha2 with ha2 | ha2
      · subst ha2; exact Nat.le_refl _
      · have := ih (h.alloc b).1 (alloc_WF h b hwf) a2 ha2
        exact Nat.le_trans (Nat.le_succ _) this

lemma cloneBodies_view : ∀ (as : List Nat) (h : Heap), h.WF →
    (∀ a ∈ as, (h.get a).isSome) →
    (cloneBodies h as).2.filterMap (fun a => (cloneBodies h as).1.get a) =
      as.filterMap (fun a => h.get a) := by
  intro as
  induction as with
  | nil => intro h _ _; rfl
  | cons a rest ih =>
    intro h hwf hval
    have hsome : (h.get a).isSome := hval a (List.mem_cons_self a rest)
    obtain ⟨b, hg⟩ := Option.isSome_iff_exists.mp hsome
    rw [cloneBodies]
    rw [hg]
    have hval1 : ∀ a2 ∈ rest, ((h.alloc b).1.get a2).isSome := by
      intro a2 ha2
      rw [get_alloc_of_isSome h b a2 (hval a2 (List.mem_cons_of_mem a ha2))]
      exact hval a2 (List.mem_cons_of_mem a ha2)
    have hih := ih (h.alloc b).1 (alloc_WF h b hwf) hval1
    have hfresh : (cloneBodies (h.alloc b).1 rest).1.get h.next = some b := by
      have hb : ((h.alloc b).1.get h.next).isSome := by
        rw [get_alloc_fresh h b hwf]; rfl
      rw [cloneBodies_get_preserved rest (h.alloc b).1 h.next hb]
      exact get_alloc_fresh h b hwf
    have haddr : (h.alloc b).2 = h.next := rfl
    simp only [List.filterMap_cons, haddr, hfresh, hg]
    congr 1
    rw [hih]
    apply List.filterMap_congr
    intro a2 ha2
    exact get_alloc_of_isSome h b a2 (hval a2 (List.mem_cons_of_mem a ha2))

/-- C1: CloneSelf yields a coordinator observing exactly the same bodies
(so the same identifiers, each source body with id N matching the clone
body with id N), the source still observes its original bodies, and the
clone shares no mutable state with the source: mutating a body's pose
through either coordinator's registry leaves every body observed by the
other coordinator unchanged. -/
theorem cloneSelf_preserves_ids_and_is_independent (h : Heap) (e : EnvRef)
    (hwf : h.WF) (hval : ∀ a ∈ e.addrs, (h.get a).isSome) :
    viewBodies (cloneSelf h e).1 (cloneSelf h e).2 = viewBodies h e ∧
    (viewBodies (cloneSelf h e).1 (cloneSelf h e).2).map Body.id =
      (viewBodies h e).map Body.id ∧
    viewBodies (cloneSelf h e).1 e = viewBodies h e ∧
    (∀ a p, a ∈ e.addrs →
      viewBodies (setPose (cloneSelf h e).1 a p) (cloneSelf h e).2 =
        viewBodies (cloneSelf h e).1 (cloneSelf h e).2) ∧
    (∀ a p, a ∈ (cloneSelf h e).2.addrs →
      viewBodies (setPose (cloneSelf h e).1 a p) e =
        viewBodies (cloneSelf h e).1 e) := by
  have hclone : viewBodies (cloneSelf h e).1 (cloneSelf h e).2 =
      viewBodies h e := cloneBodies_view e.addrs h hwf hval
  have hsrc : viewBodies (cloneSelf h e).1 e = viewBodies h e := by
    unfold viewBodies
    apply List.filterMap_congr
    intro a ha
    exact cloneBodies_get_preserved e.addrs h a (hval a ha)
  refine ⟨hclone, by rw [hclone], hsrc, ?_, ?_⟩
  · intro a p ha
    have halt : a < h.next :=
      addr_lt_next_of_isSome h a hwf (hval a ha)
    unfold viewBodies
    apply List.filterMap_congr
    intro a2 ha2
    have hge : h.next ≤ a2 := cloneBodies_addrs_fresh e.addrs h hwf a2 ha2
    exact get_setPose_ne _ a a2 p (by omega)
  · intro a p ha
    have hge : h.next ≤ a := cloneBodies_addrs_fresh e.addrs h hwf a ha
    unfold viewBodies
    apply List.filterMap_congr
    intro a2 ha2
    have halt : a2 < h.next :=
      addr_lt_next_of_isSome h a2 hwf (hval a2 ha2)
    exact get_setPose_ne _ a a2 p (by omega)

/-- A two-body store and coordinator used to instantiate the clone
theorem at a concrete input. -/
def exBody1 : Body :=
  { id := 1, name := "left arm", pose := { px := 0, py := 0, pz := 0 } }

/-- Second concrete body. -/
def exBody2 : Body :=
  { id := 2, name := "table", pose := { px := 3, py := 1, pz := 0 } }

/-- Concrete store holding the two bodies at addresses 0 and 1. -/
def exHeap : Heap :=
  { cells := [(0, exBody1), (1, exBody2)], next := 2 }

/-- Concrete coordinator registry referring to both bodies. -/
def exEnvRef : EnvRef :=
  { addrs := [0, 1] }

/-- Witness for C1: the concrete two-body store satisfies the hypotheses
and the clone observes the same bodies. -/
theorem cloneSelf_preserves_ids_and_is_independent_witness :
    exHeap.WF ∧ (∀ a ∈ exEnvRef.addrs, (exHeap.get a).isSome) ∧
    viewBodies (cloneSelf exHeap exEnvRef).1 (cloneSelf exHeap exEnvRef).2 =
      viewBodies exHeap exEnvRef :=
  ⟨by unfold Heap.WF; decide, by decide,
    (cloneSelf_preserves_ids_and_is_independent exHeap exEnvRef
      (by unfold Heap.WF; decide) (by decide)).1⟩

/-- C10: SetPhysicsEngine with a null engine succeeds, installs the dummy
physics engine, and simulation stepping remains well-defined afterwards
(a step still advances the clock by the step size). -/
theorem setPhysicsEngine_null_installs_dummy (e : Env) (s : Nat) :
    (setPhysicsEngine e none).1 = true ∧
    (setPhysicsEngine e none).2.engine = PhysicsEngine.dummy ∧
    getSimulationTime (stepSimulation (setPhysicsEngine e none).2 s) =
      getSimulationTime e + s := by
  refine ⟨rfl, rfl, ?_⟩
  simp [setPhysicsEngine, stepSimulation, getSimulationTime]

end OpenRAVE
